import Mathlib

/-!
Verification development for the Database-Prediction-Pipeline repository.

Shallow embedding of the feature-merge pipeline
(`Machine_learning_pipeline/scripts/table_ML.py`) and of the training /
prediction utilities (`Machine_learning_pipeline/train.py`).

Modelling conventions:
* A pandas cell is a `Cell`: a rational number (`Cell.num`), a string that
  does not parse as a number (`Cell.str`), or a missing value / NaN
  (`Cell.null`).  Numeric-looking strings are represented as `Cell.num`
  directly, since `pd.to_numeric` (and the CSV/JSON readers before it)
  parse them to numbers.
* `pd.to_numeric(errors="coerce")` is `toNumericCoerce`: numbers pass
  through, non-numeric strings become null, null stays null.
* A pandas column has numeric dtype exactly when it holds no string
  values (a float column may hold NaN); `isNumericCol` models
  `select_dtypes(include=[np.number])` membership.
* Frames appear in two shapes mirroring how the source manipulates them:
  column-major `DataFrame` (train.py operates column-wise) and row-major
  `Table` (table_ML.py merges and filters row-wise).
* `StandardScaler.fit_transform` (train.py, step "scaling") is omitted
  from the embedding: since scikit-learn 0.20 it ignores NaN (NaN maps to
  NaN, finite values map to finite values, zero-variance columns use
  scale 1), so it preserves the column list and the null pattern, which
  is all any statement below depends on.  Likewise the XGBoost regressor
  is abstracted as an opaque per-row function, and model fitting /
  train-test splitting are represented structurally by the
  `TrainOutcome.fitted` constructor.
-/

deriving instance DecidableEq for Except

/-- A pandas cell: a number, a non-numeric string, or a missing value (NaN). -/
inductive Cell where
  | num (q : ℚ)
  | str (s : String)
  | null
deriving DecidableEq, Repr

/-- `pd.to_numeric(x, errors="coerce")` applied to one cell: numbers stay,
non-numeric strings coerce to null, null stays null. -/
def toNumericCoerce : Cell → Cell
  | .num q => .num q
  | .str _ => .null
  | .null  => .null

/-- A column has pandas numeric dtype iff it contains no string value
(`select_dtypes(include=[np.number])` membership). -/
def isNumericCol (xs : List Cell) : Bool :=
  xs.all fun c => match c with | .str _ => false | _ => true

/-- The numeric entries of a column (pandas skips NaN in reductions). -/
def numsOf (xs : List Cell) : List ℚ :=
  xs.filterMap fun c => match c with | .num q => some q | _ => none

/-- Insert into a sorted list of rationals (ascending). -/
def insertSorted (x : ℚ) : List ℚ → List ℚ
  | [] => [x]
  | y :: ys => if x ≤ y then x :: y :: ys else y :: insertSorted x ys

/-- Sort a list of rationals ascending (insertion sort). -/
def sortQ (xs : List ℚ) : List ℚ := xs.foldr insertSorted []

/-- `Series.median` over the non-null entries: none when the list is empty,
the middle element for odd length, the mean of the two middle elements for
even length. -/
def medianQ (xs : List ℚ) : Option ℚ :=
  match xs with
  | [] => none
  | _ :: _ =>
    let s := sortQ xs
    let n := xs.length
    if n % 2 = 1 then s.get? (n / 2)
    else
      match s.get? (n / 2 - 1), s.get? (n / 2) with
      | some a, some b => some ((a + b) / 2)
      | _, _ => none

/-- Keep the first occurrence of each element (`drop_duplicates` keeps the
first duplicate and preserves row order). -/
def dedupFirst : List (List Cell) → List (List Cell)
  | [] => []
  | x :: xs => x :: dedupFirst (xs.filter fun y => y ≠ x)
termination_by l => l.length
decreasing_by
  simp only [List.length_cons]
  exact Nat.lt_succ_of_le (List.length_filter_le _ _)

/-- Pointwise product with NaN propagation (`NaN * x = NaN`); a string
operand would raise in pandas and is mapped to null here (unreachable in
the pipeline: both factors are post-coercion numeric columns). -/
def cellMul : Cell → Cell → Cell
  | .num a, .num b => .num (a * b)
  | _, _ => .null

-- ---------------------------------------------------------------------------
-- difflib.SequenceMatcher / difflib.get_close_matches
-- (CPython standard library, called by train.py for fuzzy column matching)
-- ---------------------------------------------------------------------------

/-- Positions `j` of character `c` in `b` with `blo ≤ j < bhi`
(the `b2j` occurrence lists of `SequenceMatcher`, restricted to the
current window). -/
def bPositions (b : List Char) (c : Char) (blo bhi : ℕ) : List ℕ :=
  (List.range b.length).filter fun j =>
    blo ≤ j ∧ j < bhi ∧ b.get? j = some c

/-- One row of the `find_longest_match` dynamic program: given the
run-length table of the previous row, produce the best block so far and
the run-length table for row `i`. -/
def flmRow (b : List Char) (blo bhi : ℕ) (ai : Char) (i : ℕ)
    (best : ℕ × ℕ × ℕ) (j2len : List (ℕ × ℕ)) :
    (ℕ × ℕ × ℕ) × List (ℕ × ℕ) :=
  let js := bPositions b ai blo bhi
  let newPairs := js.map fun j =>
    (j, (if j = 0 then 0 else (j2len.lookup (j - 1)).getD 0) + 1)
  let best2 := newPairs.foldl
    (fun bb jk =>
      if jk.2 > bb.2.2 then (i + 1 - jk.2, jk.1 + 1 - jk.2, jk.2) else bb)
    best
  (best2, newPairs)

/-- `SequenceMatcher.find_longest_match(alo, ahi, blo, bhi)` (no junk, no
autojunk: both hold for the short strings the pipeline compares).
Returns `(i, j, size)`. -/
def findLongestMatch (a b : List Char) (alo ahi blo bhi : ℕ) :
    ℕ × ℕ × ℕ :=
  let is := (List.range ahi).drop alo
  (is.foldl
    (fun st i =>
      match a.get? i with
      | none => (st.1, [])
      | some ai => flmRow b blo bhi ai i st.1 st.2)
    ((alo, blo, 0), [])).1

/-- Total matched characters of `get_matching_blocks` on the window
`[alo, ahi) × [blo, bhi)`: take the longest match, recurse on the regions
to its left and right.  `fuel` bounds the recursion depth; each recursive
call strictly shrinks `ahi - alo`, so `ahi - alo` fuel suffices. -/
def matchTotalFuel : ℕ → ℕ → ℕ → ℕ → ℕ → List Char → List Char → ℕ
  | 0, _, _, _, _, _, _ => 0
  | fuel + 1, alo, ahi, blo, bhi, a, b =>
    let r := findLongestMatch a b alo ahi blo bhi
    let i := r.1
    let j := r.2.1
    let k := r.2.2
    if k = 0 then 0
    else
      k +
        (if alo < i ∧ blo < j then matchTotalFuel fuel alo i blo j a b
         else 0) +
        (if i + k < ahi ∧ j + k < bhi then
           matchTotalFuel fuel (i + k) ahi (j + k) bhi a b
         else 0)

/-- Total matched characters `M` of `SequenceMatcher(a, b)`;
`ratio() = 2 * M / (len a + len b)`. -/
def matchTotal (a b : String) : ℕ :=
  let la := a.toList
  let lb := b.toList
  matchTotalFuel (la.length + 1) 0 la.length 0 lb.length la lb

/-- The cutoff test `ratio() >= 0.6` of `get_close_matches`, embedded
exactly: with `M` matched characters and `T = len a + len b`, the
comparison `2 * M / T >= 0.6` becomes `3 * T ≤ 10 * M` over ℕ (for
`T = 0` Python defines the ratio as `1.0 >= 0.6`, and `0 ≤ 0` agrees). -/
def ratioGeCutoff (m t : ℕ) : Bool :=
  3 * t ≤ 10 * m

/-- Strict comparison of two ratios `2 * ma / ta < 2 * mb / tb` by cross
multiplication (every `T` is positive when the requested word is
non-empty, as it is in the pipeline). -/
def scoreLt (ma ta mb tb : ℕ) : Bool :=
  ma * tb < mb * ta

/-- Equality of two ratios by cross multiplication. -/
def scoreEq (ma ta mb tb : ℕ) : Bool :=
  ma * tb = mb * ta

/-- `difflib.get_close_matches(word, possibilities, n=1, cutoff=0.6)`:
keep the candidates whose ratio is at least 0.6, return the best one by
`(score, candidate)` lexicographic order (`heapq.nlargest` compares the
score-candidate pairs, so an equal score is broken towards the greater
string).  `ratio` is computed with the candidate as sequence 1 and the
word as sequence 2, as `get_close_matches` does.  The float ratios of
the Python implementation are embedded as exact fractions `(M, T)`. -/
def getCloseMatch1 (word : String) (possibilities : List String) :
    Option String :=
  let cands := possibilities.filterMap fun x =>
    let m := matchTotal x word
    let t := x.length + word.length
    if ratioGeCutoff m t then some ((m, t), x) else none
  match cands with
  | [] => none
  | c :: cs =>
    some (cs.foldl
      (fun acc p =>
        if scoreLt acc.1.1 acc.1.2 p.1.1 p.1.2 ∨
            (scoreEq acc.1.1 acc.1.2 p.1.1 p.1.2 ∧ acc.2 < p.2) then p
        else acc)
      c).2

example : getCloseMatch1 "rainfal" ["area", "year", "rainfall", "crop_yield"] =
    some "rainfall" := by decide

example : getCloseMatch1 "zzzz" ["area", "year", "rainfall", "crop_yield"] =
    none := by decide

-- ---------------------------------------------------------------------------
-- train.py : data model and column validation (STEP 3)
-- ---------------------------------------------------------------------------

/-- `TrainRequest` (train.py): the training payload.  `test_size` is a
rational standing for the float test fraction. -/
structure TrainRequest where
  feature_columns : List String
  target_column : String
  test_size : ℚ := 2 / 10
  random_state : ℤ := 42
  model_type : Option String := some "xgboost"
  n_estimators : ℕ := 200
  allow_missing_features : Bool := false
  drop_na : Bool := false
deriving DecidableEq, Repr

/-- A column-major pandas DataFrame: named columns of cells (train.py
manipulates the acquired frame column-wise). -/
structure DataFrame where
  cols : List (String × List Cell)
deriving DecidableEq, Repr

/-- `df.columns`. -/
def DataFrame.colNames (df : DataFrame) : List String :=
  df.cols.map Prod.fst

/-- `df[name]`: the first column labelled `name` (empty when absent; the
pipeline only reads columns it has checked for). -/
def DataFrame.getCol (df : DataFrame) (name : String) : List Cell :=
  ((df.cols.find? fun p => p.1 = name).map Prod.snd).getD []

/-- The requested feature columns that are absent from the data
(`missing_feats`, train.py line 266). -/
def missingOf (colNames : List String) (fc : List String) : List String :=
  fc.filter fun c => !(colNames.contains c)

/-- The fuzzy auto-map `suggestions` dict (train.py lines 269-273): for
each missing feature, its confident close match among the existing
columns, if any. -/
def suggestionsOf (colNames : List String) (fc : List String) :
    List (String × String) :=
  (missingOf colNames fc).filterMap fun f =>
    (getCloseMatch1 f colNames).map fun m => (f, m)

/-- STEP 3 feature validation (train.py lines 266-284): if every
requested feature exists, keep the list; otherwise, if at least one
missing feature has a confident fuzzy match, substitute the matches and
drop whatever is still absent; otherwise drop the absent features when
`allow_missing_features` is set, else fail. -/
def validateFeatures (colNames : List String) (fc : List String)
    (allowMissing : Bool) : Except String (List String) :=
  let missing := missingOf colNames fc
  if missing.isEmpty then .ok fc
  else
    let suggestions := suggestionsOf colNames fc
    if !suggestions.isEmpty then
      .ok ((fc.map fun c => (suggestions.lookup c).getD c).filter
        fun c => colNames.contains c)
    else if allowMissing then
      .ok (fc.filter fun c => colNames.contains c)
    else .error "Missing features - set --allow-missing"

/-- STEP 3 column validation (train.py lines 259-284): the target column
must exist, then the feature list is validated. -/
def validateColumns (colNames : List String) (target : String)
    (fc : List String) (allowMissing : Bool) : Except String (List String) :=
  if !(colNames.contains target) then .error "Target column missing"
  else validateFeatures colNames fc allowMissing

-- ---------------------------------------------------------------------------
-- train.py : feature engineering and cleaning (STEPS 4-6)
-- ---------------------------------------------------------------------------

/-- `X_raw.groupby(df["area"])[c].transform(lambda x: x.fillna(x.median()))`:
a null entry is filled with the median of the non-null entries sharing
its area key; rows whose area key is itself null are excluded from every
group, so the transform leaves them NaN. -/
def groupFill (areas xs : List Cell) : List Cell :=
  (List.range xs.length).map fun i =>
    match areas.getD i Cell.null with
    | Cell.null => Cell.null
    | a =>
      match xs.getD i Cell.null with
      | Cell.null =>
        let grpVals := numsOf ((List.range xs.length).filterMap fun j =>
          if areas.getD j Cell.null = a then xs.get? j else none)
        match medianQ grpVals with
        | some m => Cell.num m
        | none => Cell.null
      | c => c

/-- Numeric imputation of one column (train.py lines 313-324): group
median fill when the data has an `area` column, then fill the remaining
nulls with the global median of the column (0 when that is undefined). -/
def imputeColumn (areaCol : Option (List Cell)) (xs : List Cell) :
    List Cell :=
  let xs1 := match areaCol with
    | some areas => groupFill areas xs
    | none => xs
  let med := (medianQ (numsOf xs1)).getD 0
  xs1.map fun c => match c with
    | Cell.null => Cell.num med
    | c => c

/-- Ordering on cells used only to model how `Series.mode` sorts the
candidate values before `iloc[0]` picks the first. -/
def cellLe : Cell → Cell → Bool
  | .num a, .num b => a ≤ b
  | .num _, _ => true
  | .str _, .num _ => false
  | .str a, .str b => a ≤ b
  | .str _, _ => true
  | .null, .null => true
  | .null, _ => false

/-- `Series.mode(dropna=True).iloc[0]`: a most frequent non-null value,
least under `cellLe` on a tie; none when the column has no non-null
value. -/
def modeCell (xs : List Cell) : Option Cell :=
  let vals := (xs.filter fun c => c ≠ Cell.null).foldl
    (fun acc c => if acc.contains c then acc else acc ++ [c]) []
  match vals with
  | [] => none
  | v :: vs =>
    some (vs.foldl
      (fun best v2 =>
        let cb := xs.count best
        let c2 := xs.count v2
        if c2 > cb ∨ (c2 = cb ∧ cellLe v2 best ∧ v2 ≠ best) then v2
        else best)
      v)

/-- Categorical fill (train.py lines 330-336): fill nulls with the mode,
or the literal "missing" when no mode exists. -/
def catFill (xs : List Cell) : List Cell :=
  let fill := (modeCell xs).getD (Cell.str "missing")
  xs.map fun c => match c with
    | Cell.null => fill
    | c => c

/-- Printable name of a cell value for dummy-column labels. -/
def cellName : Cell → String
  | .num q => toString q
  | .str s => s
  | .null => "nan"

/-- `pd.get_dummies(X, columns=cat_cols, drop_first=False)`: the encoded
columns are removed, and for each of them one 0/1 indicator column per
distinct non-null value (sorted ascending) is appended. -/
def oneHot (catCols : List String) (X : List (String × List Cell)) :
    List (String × List Cell) :=
  let keep := X.filter fun p => !(catCols.contains p.1)
  let dummies := (X.filter fun p => catCols.contains p.1).flatMap fun p =>
    let vals := (p.2.filter fun c => c ≠ Cell.null).foldl
      (fun acc c => if acc.contains c then acc else acc ++ [c]) []
    (vals.mergeSort cellLe).map fun v =>
      (p.1 ++ "_" ++ cellName v,
        p.2.map fun c => if c = v then Cell.num 1 else Cell.num 0)
  keep ++ dummies

/-- `df[payload.feature_columns]` (train.py line 295). -/
def featureFrameRaw (df : DataFrame) (fc : List String) :
    List (String × List Cell) :=
  fc.map fun c => (c, df.getCol c)

/-- The numeric-coercion loop (train.py lines 299-300): every requested
feature column is coerced with `pd.to_numeric(errors="coerce")`. -/
def coerceFrame (X : List (String × List Cell)) :
    List (String × List Cell) :=
  X.map fun p => (p.1, p.2.map toNumericCoerce)

/-- `numeric_cols = X_raw.select_dtypes(include=[np.number])` (line 310),
computed after the coercion loop. -/
def numericColNames (X : List (String × List Cell)) : List String :=
  (X.filter fun p => isNumericCol p.2).map Prod.fst

/-- `cat_cols = [c for c in X_raw.columns if c not in numeric_cols]`
(line 327). -/
def catColNames (X : List (String × List Cell)) : List String :=
  (X.map Prod.fst).filter fun c => !((numericColNames X).contains c)

/-- The column of a processed frame (first match, empty when absent). -/
def colOf (X : List (String × List Cell)) (name : String) : List Cell :=
  ((X.find? fun p => p.1 = name).map Prod.snd).getD []

/-- The numeric-imputation loop (train.py lines 311-324) over the
columns classified numeric. -/
def imputeStage (areaCol : Option (List Cell)) (numCols : List String)
    (X : List (String × List Cell)) : List (String × List Cell) :=
  X.map fun p =>
    if numCols.contains p.1 then (p.1, imputeColumn areaCol p.2) else p

/-- The categorical mode-fill loop (train.py lines 330-336) over the
columns classified categorical. -/
def catFillStage (catCols : List String) (X : List (String × List Cell)) :
    List (String × List Cell) :=
  X.map fun p =>
    if catCols.contains p.1 then (p.1, catFill p.2) else p

/-- The rainfall-temperature interaction feature (train.py lines
348-352): added when both columns are present in the processed matrix. -/
def interactStage (X : List (String × List Cell)) :
    List (String × List Cell) :=
  if (X.map Prod.fst).contains "rainfall" &&
      (X.map Prod.fst).contains "temperature" then
    X ++ [("rain_temp_interact",
      List.zipWith cellMul (colOf X "rainfall") (colOf X "temperature"))]
  else X

/-- STEP 4 feature engineering (train.py lines 295-352, scaling aside):
select the requested columns, coerce them all numeric, impute the
numeric ones unless `drop_na`, mode-fill and one-hot encode the
categorical ones, and add the rainfall-temperature interaction when both
columns survive.  The scaler (lines 355-359) is omitted: it preserves
the column list and the null pattern (see the header note). -/
def buildFeatures (df : DataFrame) (fc : List String) (dropNA : Bool) :
    List (String × List Cell) :=
  let X1 := coerceFrame (featureFrameRaw df fc)
  let numCols := numericColNames X1
  let areaCol := if df.colNames.contains "area" then some (df.getCol "area")
    else none
  let X2 := if dropNA then X1 else imputeStage areaCol numCols X1
  let catCols := catColNames X1
  let X3 := catFillStage catCols X2
  let X4 := if catCols.isEmpty then X3 else oneHot catCols X3
  interactStage X4

/-- STEP 5 target processing: `y = pd.to_numeric(df[target], errors="coerce")`. -/
def targetSeries (df : DataFrame) (target : String) : List Cell :=
  (df.getCol target).map toNumericCoerce

/-- The row indices surviving `temp.dropna()` on the feature matrix
joined with the target (train.py lines 376-385). -/
def dropNAKeep (X : List (String × List Cell)) (y : List Cell) : List ℕ :=
  (List.range y.length).filter fun i =>
    y.getD i Cell.null ≠ Cell.null ∧
      X.all fun p => p.2.getD i Cell.null ≠ Cell.null

/-- `len(y)` at the STEP 7 guard: with `drop_na` it is the number of rows
surviving the joint dropna; otherwise the target is median-imputed in
place and every row survives. -/
def cleanCount (df : DataFrame) (fc : List String) (target : String)
    (dropNA : Bool) : ℕ :=
  let y := targetSeries df target
  if dropNA then (dropNAKeep (buildFeatures df fc dropNA) y).length
  else y.length

/-- The guard message raised at train.py line 403. -/
def tooFewMsg : String := "Too few samples after cleaning - check data / drop_na"

/-- Outcome of `train_model`: either an error was raised, or the
train/test split and the XGBoost fit were reached with the given sample
count and final feature columns (`.fitted` is the only constructor in
which `train_test_split` and `model.fit` run). -/
inductive TrainOutcome where
  | error (msg : String)
  | fitted (nSamples : ℕ) (finalFeatures : List String)
deriving DecidableEq, Repr

/-- `train_model` (train.py lines 212-481) from column validation to the
sample-count guard, with explicit state passing for the in-place
mutation of `payload.feature_columns`: the second component is the
request object as the caller observes it afterwards. -/
def train_model (df : DataFrame) (req : TrainRequest) :
    TrainOutcome × TrainRequest :=
  match validateColumns df.colNames req.target_column req.feature_columns
      req.allow_missing_features with
  | .error e => (.error e, req)
  | .ok fc =>
    let req1 := { req with feature_columns := fc }
    let X := buildFeatures df fc req.drop_na
    let n := cleanCount df fc req.target_column req.drop_na
    if n < 100 then (.error tooFewMsg, req1)
    else (.fitted n (X.map Prod.fst), req1)

-- ---------------------------------------------------------------------------
-- train.py : prediction
-- ---------------------------------------------------------------------------

/-- A loadable model bundle: `load_model` fails unless the artifact holds
at least the model and the feature column list, so a `Bundle` value
stands for a bundle that passed that validation.  The fitted regressor
is abstracted as a per-row function. -/
structure Bundle where
  model : List ℚ → ℚ
  feature_columns : List String

/-- `pd.DataFrame([features]).reindex(columns=cols, fill_value=0)`:
the single input row in the bundle column order, absent columns filled
with the number 0. -/
def predictInputRow (cols : List String) (features : List (String × Cell)) :
    List Cell :=
  cols.map fun c =>
    match features.lookup c with
    | some v => v
    | none => Cell.num 0

/-- `pd.to_numeric(df[c], errors="coerce").fillna(0)` on one cell. -/
def coerceFill0 (c : Cell) : ℚ :=
  match toNumericCoerce c with
  | .num q => q
  | _ => 0

/-- `model.predict` on a matrix: one prediction per row. -/
def modelPredictMatrix (m : List ℚ → ℚ) (rows : List (List ℚ)) : List ℚ :=
  rows.map m

/-- `predict` (train.py lines 486-500): build the one-row frame, coerce
every column numeric with parse failures becoming 0, run the model, and
return `pred.tolist()[0]` (none would be the out-of-range case of the
final indexing). -/
def predict (b : Bundle) (features : List (String × Cell)) : Option ℚ :=
  let row := predictInputRow b.feature_columns features
  let vals := row.map coerceFill0
  (modelPredictMatrix b.model [vals]).head?

-- ---------------------------------------------------------------------------
-- table_ML.py : row-major tables, readers, merge, finalizer
-- ---------------------------------------------------------------------------

/-- A row-major pandas DataFrame as table_ML.py manipulates it: a header
of column names and rows of cells (well-formed rows have the header
length). -/
structure Table where
  header : List String
  rows : List (List Cell)
deriving DecidableEq, Repr

/-- Index of the first column with the given label. -/
def colIndex : List String → String → Option ℕ
  | [], _ => none
  | h :: hs, c => if h = c then some 0 else (colIndex hs c).map (· + 1)

/-- The cell of a row in the column with the given label. -/
def cellAt (h : List String) (row : List Cell) (c : String) : Option Cell :=
  (colIndex h c).bind fun i => row.get? i

/-- Apply a function at one position of a row. -/
def modifyAt : ℕ → (Cell → Cell) → List Cell → List Cell
  | _, _, [] => []
  | 0, f, c :: cs => f c :: cs
  | i + 1, f, c :: cs => c :: modifyAt i f cs

/-- `df.rename(columns=m)`: relabel the header, leaving unknown labels
and all rows unchanged. -/
def renameHeader (m : List (String × String)) (t : Table) : Table :=
  { t with header := t.header.map fun h => ((m.lookup h).getD h) }

/-- `df[cols]` for columns that must all exist (pandas raises `KeyError`
otherwise, which the reader catches and turns into `None`). -/
def selectColsOpt (cols : List String) (t : Table) : Option Table :=
  if cols.all fun c => t.header.contains c then
    some { header := cols,
           rows := t.rows.map fun r =>
             cols.map fun c => (cellAt t.header r c).getD Cell.null }
  else none

/-- The rainfall rename map (table_ML.py lines 52-56); note the leading
space in the raw area label. -/
def rainRenameMap : List (String × String) :=
  [(" Area", "area"), ("Year", "year"),
   ("average_rain_fall_mm_per_year", "rainfall")]

/-- `DataProcessor.load_and_process_rainfall` (table_ML.py lines 45-69),
applied to the parsed CSV: rename the columns, coerce rainfall numeric,
keep the rows with `rainfall > 0` (NaN compares false), and project to
`area, year, rainfall`; any failure (absent column) yields none, as the
method catches the exception and returns `None`. -/
def load_and_process_rainfall (t : Table) : Option Table :=
  let t1 := renameHeader rainRenameMap t
  match colIndex t1.header "rainfall" with
  | none => none
  | some i =>
    let t2 := { t1 with rows := t1.rows.map (modifyAt i toNumericCoerce) }
    let t3 := { t2 with rows := t2.rows.filter (fun r =>
      match r.getD i Cell.null with
      | Cell.num q => decide (0 < q)
      | _ => false) }
    selectColsOpt ["area", "year", "rainfall"] t3

/-- Whether a raw row would survive the rainfall filter: its rainfall
cell under the renamed header coerces to a positive number. -/
def survivesRain (h : List String) (r : List Cell) : Bool :=
  match toNumericCoerce ((cellAt h r "rainfall").getD Cell.null) with
  | Cell.num q => decide (0 < q)
  | _ => false

/-- `merged_df.merge(df, on=["area","year"], how="left", suffixes=("", "_name"))`:
none when a key column is absent from either side (pandas raises, and
`merge_datasets` catches and returns `None`).  Every left row is paired
with each right row sharing its `(area, year)` key cells, or padded with
nulls when no right row matches; a non-key right column whose label
already occurs on the left gets the `_name` suffix. -/
def leftJoin (L R : Table) (name : String) : Option Table :=
  match colIndex L.header "area", colIndex L.header "year",
      colIndex R.header "area", colIndex R.header "year" with
  | some la, some ly, some ra, some ry =>
    let rKeep := (List.range R.header.length).filter fun k =>
      R.header.get? k ≠ some "area" ∧ R.header.get? k ≠ some "year"
    let rNames := rKeep.map fun k =>
      let h := (R.header.get? k).getD ""
      if L.header.contains h then h ++ "_" ++ name else h
    some
      { header := L.header ++ rNames,
        rows := L.rows.flatMap fun lr =>
          let ms := R.rows.filter fun rr =>
            lr.getD la Cell.null = rr.getD ra Cell.null ∧
              lr.getD ly Cell.null = rr.getD ry Cell.null
          match ms with
          | [] => [lr ++ rKeep.map fun _ => Cell.null]
          | _ :: _ => ms.map fun rr =>
              lr ++ rKeep.map fun k => rr.getD k Cell.null }
  | _, _, _, _ => none

/-- One step of the merge loop (table_ML.py lines 165-181): the yield
frame is skipped (it seeded the merge), empty frames are skipped, and
every other frame is left-joined on `(area, year)`. -/
def mergeStep (acc : Option Table) (p : String × Table) : Option Table :=
  match acc with
  | none => none
  | some m =>
    if p.1 = "yield" then some m
    else if p.2.rows.isEmpty then some m
    else leftJoin m p.2 p.1

/-- `DataProcessor.merge_datasets` (table_ML.py lines 147-187): none for
an empty dataset dict; the base frame is the yield frame when it is
present and non-empty, otherwise the first available dataset; every
other non-empty frame is left-joined onto it. -/
def merge_datasets (datasets : List (String × Table)) : Option Table :=
  match datasets with
  | [] => none
  | (_, t0) :: _ =>
    let base := match datasets.lookup "yield" with
      | some ty => if ty.rows.isEmpty then t0 else ty
      | none => t0
    datasets.foldl mergeStep (some base)

/-- The fixed priority column order of the finalizer (table_ML.py line 195). -/
def priorityColumns : List String :=
  ["area", "year", "crop_type", "crop_yield", "rainfall", "temperature",
   "pesticide_usage"]

/-- The columns the finalizer coerces numeric (table_ML.py line 201). -/
def finalNumericColumns : List String :=
  ["crop_yield", "rainfall", "temperature", "pesticide_usage"]

/-- `df[available]` for the priority columns that exist. -/
def selectPresent (cols : List String) (t : Table) : Table :=
  let avail := cols.filter fun c => t.header.contains c
  { header := avail,
    rows := t.rows.map fun r =>
      avail.map fun c => (cellAt t.header r c).getD Cell.null }

/-- The numeric-coercion loop of the finalizer over the columns of
`finalNumericColumns` that are present. -/
def coerceNumericCols (cols : List String) (t : Table) : Table :=
  cols.foldl
    (fun acc c =>
      match colIndex acc.header c with
      | some i => { acc with rows := acc.rows.map (modifyAt i toNumericCoerce) }
      | none => acc)
    t

/-- The target-presence filter of the finalizer (table_ML.py lines
207-211): when a `crop_yield` column exists, drop the rows where it is
null. -/
def dropNullTarget (t : Table) : Table :=
  if t.header.contains "crop_yield" then
    { t with rows := t.rows.filter fun r =>
        (cellAt t.header r "crop_yield").getD Cell.null ≠ Cell.null }
  else t

/-- `df.drop_duplicates()` (table_ML.py line 215). -/
def dedupRows (t : Table) : Table :=
  { t with rows := dedupFirst t.rows }

/-- `DataProcessor.create_final_ml_table` (table_ML.py lines 189-219):
return an empty frame unchanged; otherwise restrict to the priority
columns that are present, coerce the numeric ones, drop the rows with a
null `crop_yield` when that column is present, and drop exact duplicate
rows. -/
def create_final_ml_table (t : Table) : Table :=
  if t.rows.isEmpty ∨ t.header.isEmpty then t
  else
    dedupRows (dropNullTarget
      (coerceNumericCols finalNumericColumns (selectPresent priorityColumns t)))

-- ---------------------------------------------------------------------------
-- General lemmas about the embedding
-- ---------------------------------------------------------------------------

lemma isNumericCol_map_coerce (xs : List Cell) :
    isNumericCol (xs.map toNumericCoerce) = true := by
  rw [isNumericCol, List.all_eq_true]
  intro c hc
  obtain ⟨d, _, rfl⟩ := List.mem_map.mp hc
  cases d <;> rfl

lemma coerceFrame_names (X : List (String × List Cell)) :
    (coerceFrame X).map Prod.fst = X.map Prod.fst := by
  simp [coerceFrame]

lemma featureFrameRaw_names (df : DataFrame) (fc : List String) :
    (featureFrameRaw df fc).map Prod.fst = fc := by
  rw [featureFrameRaw, List.map_map]
  exact List.map_id fc

lemma numericColNames_coerceFrame (X : List (String × List Cell)) :
    numericColNames (coerceFrame X) = (coerceFrame X).map Prod.fst := by
  rw [numericColNames, List.filter_eq_self.mpr]
  intro p hp
  rw [coerceFrame, List.mem_map] at hp
  obtain ⟨q, _, rfl⟩ := hp
  exact isNumericCol_map_coerce q.2

lemma catColNames_coerceFrame (X : List (String × List Cell)) :
    catColNames (coerceFrame X) = [] := by
  rw [catColNames, numericColNames_coerceFrame]
  rw [List.filter_eq_nil_iff]
  intro c hc
  simp [hc]

lemma map_fst_update (X : List (String × List Cell))
    (c : String → Bool) (g : String × List Cell → List Cell) :
    ((X.map fun p => if c p.1 then (p.1, g p) else p).map Prod.fst) =
      X.map Prod.fst := by
  induction X with
  | nil => rfl
  | cons a l ih =>
    simp only [List.map_cons]
    rw [ih]
    congr 1
    split <;> rfl

-- ---------------------------------------------------------------------------
-- C1
-- ---------------------------------------------------------------------------

/-- Acquired data with intentionally categorical string columns, as in
the default CLI request (`area`, `crop_type` hold non-numeric strings). -/
def dfCat : DataFrame :=
  ⟨[("area", [Cell.str "Kenya", Cell.str "Ghana", Cell.str "Kenya"]),
    ("crop_type", [Cell.str "Maize", Cell.str "Wheat", Cell.str "Rice"]),
    ("crop_yield", [Cell.num 10, Cell.num 20, Cell.num 30])]⟩

/-- C1, counterexample: on data whose `area` and `crop_type` columns hold
non-numeric strings, the feature matrix built by `train_model` contains
no indicator columns at all — the two columns survive under their own
names as constant 0 columns (their string values are destroyed by the
numeric coercion and then zero-imputed), so they are NOT treated as
categorical and NOT one-hot encoded. -/
theorem string_feature_columns_destroyed :
    buildFeatures dfCat ["area", "crop_type"] false =
      [("area", [Cell.num 0, Cell.num 0, Cell.num 0]),
       ("crop_type", [Cell.num 0, Cell.num 0, Cell.num 0])] ∧
    catColNames (coerceFrame (featureFrameRaw dfCat ["area", "crop_type"])) =
      [] := by
  constructor <;> decide

/-- C1 (amended): after the numeric-coercion loop every requested column
has numeric dtype, so the categorical set of `train_model` is always
empty, the one-hot encoding step never fires, and the final feature
matrix has exactly the requested columns (plus the rainfall-temperature
interaction when both were requested) — never indicator columns. -/
lemma imputeStage_names (a : Option (List Cell)) (n : List String)
    (X : List (String × List Cell)) :
    (imputeStage a n X).map Prod.fst = X.map Prod.fst :=
  map_fst_update X _ _

lemma catFillStage_names (cc : List String)
    (X : List (String × List Cell)) :
    (catFillStage cc X).map Prod.fst = X.map Prod.fst :=
  map_fst_update X _ _

lemma interactStage_names (X : List (String × List Cell)) :
    (interactStage X).map Prod.fst =
      (if (X.map Prod.fst).contains "rainfall" &&
          (X.map Prod.fst).contains "temperature" then
        X.map Prod.fst ++ ["rain_temp_interact"] else X.map Prod.fst) := by
  rw [interactStage]
  split
  · simp
  · rfl

lemma buildFeatures_names (df : DataFrame) (fc : List String)
    (dropNA : Bool) :
    (buildFeatures df fc dropNA).map Prod.fst =
      (if fc.contains "rainfall" && fc.contains "temperature" then
        fc ++ ["rain_temp_interact"] else fc) := by
  have h1 : (coerceFrame (featureFrameRaw df fc)).map Prod.fst = fc := by
    rw [coerceFrame_names, featureFrameRaw_names]
  have h2 :
      ((if dropNA then coerceFrame (featureFrameRaw df fc)
        else imputeStage
          (if df.colNames.contains "area" then some (df.getCol "area")
            else none)
          (numericColNames (coerceFrame (featureFrameRaw df fc)))
          (coerceFrame (featureFrameRaw df fc))).map Prod.fst) = fc := by
    cases dropNA
    · rw [if_neg (by simp), imputeStage_names, h1]
    · rw [if_pos rfl, h1]
  rw [buildFeatures]
  simp only [catColNames_coerceFrame, List.isEmpty_nil, if_true,
    interactStage_names, catFillStage_names, h2]

/-- C1 (amended): after the numeric-coercion loop every requested column
has numeric dtype, so the categorical set of `train_model` is always
empty, the one-hot encoding step never fires, and the final feature
matrix has exactly the requested columns (plus the rainfall-temperature
interaction when both were requested) — never indicator columns. -/
theorem one_hot_step_never_fires (df : DataFrame) (fc : List String)
    (dropNA : Bool) :
    catColNames (coerceFrame (featureFrameRaw df fc)) = [] ∧
    (buildFeatures df fc dropNA).map Prod.fst =
      (if fc.contains "rainfall" && fc.contains "temperature" then
        fc ++ ["rain_temp_interact"] else fc) :=
  ⟨catColNames_coerceFrame (featureFrameRaw df fc),
   buildFeatures_names df fc dropNA⟩

-- ---------------------------------------------------------------------------
-- C3
-- ---------------------------------------------------------------------------

/-- The data columns used in the fuzzy-matching counterexamples. -/
def colsQuad : List String := ["area", "year", "rainfall", "crop_yield"]

/-- 101 complete rows over the columns of `colsQuad`. -/
def dfTypo : DataFrame :=
  ⟨[("area", List.replicate 101 (Cell.str "X")),
    ("year", List.replicate 101 (Cell.num 2000)),
    ("rainfall", List.replicate 101 (Cell.num 5)),
    ("crop_yield", List.replicate 101 (Cell.num 7))]⟩

/-- A request for the misspelt `rainfal` and the unmatched `zzzz`, with
`allow_missing_features = false`. -/
def reqTypoTwo : TrainRequest :=
  { feature_columns := ["rainfal", "zzzz"], target_column := "crop_yield" }

set_option maxRecDepth 100000 in
/-- C3, counterexample: with `allow_missing_features = false`, the
requested feature `zzzz` is absent and has no confident fuzzy match, yet
`train_model` does NOT fail — because the other missing feature
`rainfal` has a match, the whole suggestion branch is taken, `zzzz` is
silently dropped from the feature list, and training proceeds to the fit
on the single surviving feature. -/
theorem unmatched_feature_silently_dropped :
    validateFeatures colsQuad ["rainfal", "zzzz"] false = .ok ["rainfall"] ∧
    colsQuad.contains "zzzz" = false ∧
    getCloseMatch1 "zzzz" colsQuad = none ∧
    (train_model dfTypo reqTypoTwo).1 = .fitted 101 ["rainfall"] := by
  refine ⟨?_, ?_, ?_, ?_⟩ <;> decide

/-- C3 (amended): with `allow_missing_features = false`, `train_model`
validation fails if and only if some requested feature is missing and NO
missing feature has a confident fuzzy match; whenever at least one
missing feature has a match, the matched ones are substituted and the
unmatched ones are silently dropped in spite of the flag. -/
theorem validate_fails_iff_no_suggestion (cols fc : List String) :
    (∃ e, validateFeatures cols fc false = .error e) ↔
      (missingOf cols fc ≠ [] ∧ suggestionsOf cols fc = []) := by
  rw [validateFeatures]
  by_cases h1 : (missingOf cols fc).isEmpty = true
  · have h1e := List.isEmpty_iff.mp h1
    simp [h1, h1e]
  · have h1e : missingOf cols fc ≠ [] := by
      intro h
      exact h1 (by rw [h]; rfl)
    by_cases h2 : (suggestionsOf cols fc).isEmpty = true
    · have h2e := List.isEmpty_iff.mp h2
      simp [h1, h2, h1e, h2e]
    · have h2e : suggestionsOf cols fc ≠ [] := by
        intro h
        exact h2 (by rw [h]; rfl)
      simp [h1, h2, h2e]

/-- Witness for `validate_fails_iff_no_suggestion`: a concrete request
whose only feature is missing with no confident match does fail. -/
theorem validate_fails_iff_no_suggestion_witness :
    ∃ e, validateFeatures ["area"] ["zzzz"] false = .error e :=
  (validate_fails_iff_no_suggestion ["area"] ["zzzz"]).mpr (by decide)

-- ---------------------------------------------------------------------------
-- Validation success lemmas (shared by C4, C7, C10)
-- ---------------------------------------------------------------------------

/-- Whatever feature list validation returns, all its entries exist in
the data: the unchanged list had no missing entry, and both rewritten
lists are filtered by membership. -/
lemma validateFeatures_ok_mem (cols fc out : List String)
    (allowMissing : Bool)
    (h : validateFeatures cols fc allowMissing = .ok out) :
    ∀ c ∈ out, cols.contains c = true := by
  rw [validateFeatures] at h
  by_cases h1 : (missingOf cols fc).isEmpty = true
  · rw [if_pos h1] at h
    injection h with h
    subst h
    intro c hc
    have h1e := List.isEmpty_iff.mp h1
    rw [missingOf, List.filter_eq_nil_iff] at h1e
    have := h1e c hc
    simp at this
    simpa using this
  · rw [if_neg h1] at h
    by_cases h2 : (suggestionsOf cols fc).isEmpty = true
    · rw [if_neg (by simp [h2])] at h
      by_cases h3 : allowMissing = true
      · rw [if_pos h3] at h
        injection h with h
        subst h
        intro c hc
        exact (List.mem_filter.mp hc).2
      · rw [if_neg h3] at h
        exact absurd h (by simp)
    · rw [if_pos (by simp [Bool.not_eq_true] at h2 ⊢; exact h2)] at h
      injection h with h
      subst h
      intro c hc
      exact (List.mem_filter.mp hc).2

/-- Same statement lifted over the target-column check. -/
lemma validateColumns_ok_mem (cols : List String) (target : String)
    (fc out : List String) (allowMissing : Bool)
    (h : validateColumns cols target fc allowMissing = .ok out) :
    ∀ c ∈ out, cols.contains c = true := by
  rw [validateColumns] at h
  by_cases h0 : cols.contains target = true
  · rw [if_neg (by simp; simpa using h0)] at h
    exact validateFeatures_ok_mem cols fc out allowMissing h
  · rw [if_pos (by simp [Bool.not_eq_true] at h0 ⊢; exact h0)] at h
    exact absurd h (by simp)

-- ---------------------------------------------------------------------------
-- C4
-- ---------------------------------------------------------------------------

/-- C4: once validation has produced the feature list, `train_model`
raises the data-quality error exactly when fewer than 100 samples
survive cleaning — `.error` means the function raises before the
train/test split, so `model.fit` is never attempted (only the `.fitted`
constructor represents reaching the split and the fit) — and with 100 or
more surviving samples the guard does not fire. -/
theorem sample_guard_blocks_fit (df : DataFrame) (req : TrainRequest)
    (fc : List String)
    (hv : validateColumns df.colNames req.target_column req.feature_columns
      req.allow_missing_features = .ok fc) :
    (cleanCount df fc req.target_column req.drop_na < 100 →
      (train_model df req).1 = .error tooFewMsg) ∧
    (100 ≤ cleanCount df fc req.target_column req.drop_na →
      (train_model df req).1 =
        .fitted (cleanCount df fc req.target_column req.drop_na)
          ((buildFeatures df fc req.drop_na).map Prod.fst)) := by
  constructor <;> intro hn
  · simp only [train_model, hv]
    rw [if_pos hn]
  · simp only [train_model, hv]
    rw [if_neg (Nat.not_lt.mpr hn)]

/-- A tiny but valid acquired frame: two rows, both columns numeric. -/
def dfSmall : DataFrame :=
  ⟨[("t", [Cell.num 1, Cell.num 2]), ("yy", [Cell.num 3, Cell.num 4])]⟩

/-- The corresponding request. -/
def reqSmall : TrainRequest :=
  { feature_columns := ["t"], target_column := "yy" }

/-- Witness for `sample_guard_blocks_fit`: two cleaned samples are fewer
than 100, and `train_model` raises the data-quality error. -/
theorem sample_guard_blocks_fit_witness :
    cleanCount dfSmall ["t"] "yy" false < 100 ∧
    (train_model dfSmall reqSmall).1 = .error tooFewMsg :=
  ⟨by decide,
   (sample_guard_blocks_fit dfSmall reqSmall ["t"] (by decide)).1 (by decide)⟩

-- ---------------------------------------------------------------------------
-- C7
-- ---------------------------------------------------------------------------

lemma cleanCount_drop_le (df : DataFrame) (fc : List String) (t : String) :
    cleanCount df fc t true ≤ cleanCount df fc t false := by
  simp only [cleanCount, if_true, Bool.false_eq_true, if_false]
  calc (dropNAKeep (buildFeatures df fc true) (targetSeries df t)).length
      ≤ (List.range (targetSeries df t).length).length := by
        rw [dropNAKeep]
        exact List.length_filter_le _ _
    _ = (targetSeries df t).length := List.length_range _

/-- C7: whenever the same request reaches the fit both with and without
`drop_na` on the same acquired data, the `drop_na = true` run trains on
at most as many samples as the `drop_na = false` run. -/
theorem drop_na_fewer_samples (df : DataFrame) (req : TrainRequest)
    (nT nF : ℕ) (fsT fsF : List String)
    (hT : (train_model df { req with drop_na := true }).1 = .fitted nT fsT)
    (hF : (train_model df { req with drop_na := false }).1 = .fitted nF fsF) :
    nT ≤ nF := by
  simp only [train_model] at hT hF
  cases hv : validateColumns df.colNames req.target_column
      req.feature_columns req.allow_missing_features with
  | error e =>
    rw [hv] at hT
    simp at hT
  | ok fc =>
    rw [hv] at hT hF
    simp only [] at hT hF
    split at hT
    · simp at hT
    · split at hF
      · simp at hF
      · simp only [Prod.fst] at hT hF
        injection hT with h1 _
        injection hF with h2 _
        rw [← h1, ← h2]
        exact cleanCount_drop_le df fc req.target_column

/-- A valid acquired frame with 101 complete rows. -/
def dfBig : DataFrame :=
  ⟨[("t", List.replicate 101 (Cell.num 1)),
    ("yy", List.replicate 101 (Cell.num 2))]⟩

/-- The corresponding request. -/
def reqBig : TrainRequest :=
  { feature_columns := ["t"], target_column := "yy" }

set_option maxRecDepth 100000 in
/-- Witness for `drop_na_fewer_samples`: on 101 complete rows both runs
fit on 101 samples, and the theorem yields `101 ≤ 101`. -/
theorem drop_na_fewer_samples_witness :
    (train_model dfBig { reqBig with drop_na := true }).1 =
      .fitted 101 ["t"] ∧
    (101 : ℕ) ≤ 101 :=
  ⟨by decide,
   drop_na_fewer_samples dfBig reqBig 101 101 ["t"] ["t"]
     (by decide) (by decide)⟩

-- ---------------------------------------------------------------------------
-- C10
-- ---------------------------------------------------------------------------

/-- C10: `train_model` mutates its request in place — modelled by the
second component of the result, the request object as the caller sees it
afterwards.  When validation succeeds although some requested feature
column is absent from the data, the feature list the caller ends up with
differs from the one it passed in, while every other request field is
unchanged. -/
theorem train_model_rewrites_request (df : DataFrame) (req : TrainRequest)
    (fc : List String) (c : String)
    (hv : validateColumns df.colNames req.target_column req.feature_columns
      req.allow_missing_features = .ok fc)
    (hc : c ∈ req.feature_columns)
    (hmiss : df.colNames.contains c = false) :
    (train_model df req).2.feature_columns ≠ req.feature_columns ∧
    (train_model df req).2.target_column = req.target_column ∧
    (train_model df req).2.test_size = req.test_size ∧
    (train_model df req).2.random_state = req.random_state ∧
    (train_model df req).2.model_type = req.model_type ∧
    (train_model df req).2.n_estimators = req.n_estimators ∧
    (train_model df req).2.allow_missing_features =
      req.allow_missing_features ∧
    (train_model df req).2.drop_na = req.drop_na := by
  have hsnd : (train_model df req).2 = { req with feature_columns := fc } := by
    simp only [train_model, hv]
    split <;> rfl
  rw [hsnd]
  refine ⟨?_, rfl, rfl, rfl, rfl, rfl, rfl, rfl⟩
  intro he
  have hcfc : c ∈ fc := by
    have hfc : fc = req.feature_columns := he
    rw [hfc]
    exact hc
  have := validateColumns_ok_mem df.colNames req.target_column
    req.feature_columns fc req.allow_missing_features hv c hcfc
  rw [hmiss] at this
  exact Bool.false_ne_true this

/-- A frame whose only columns are `rainfall` and `crop_yield`. -/
def dfRain : DataFrame :=
  ⟨[("rainfall", [Cell.num 10, Cell.num 20]),
    ("crop_yield", [Cell.num 1, Cell.num 2])]⟩

/-- A request asking for the misspelt feature `rainfal`. -/
def reqTypo : TrainRequest :=
  { feature_columns := ["rainfal"], target_column := "crop_yield" }

/-- Witness for `train_model_rewrites_request`: the request that asked
for `rainfal` comes back holding `["rainfall"]` instead. -/
theorem train_model_rewrites_request_witness :
    (train_model dfRain reqTypo).2.feature_columns ≠ ["rainfal"] ∧
    (train_model dfRain reqTypo).2.target_column = "crop_yield" :=
  ⟨(train_model_rewrites_request dfRain reqTypo ["rainfall"] "rainfal"
      (by decide) (by decide) (by decide)).1,
   (train_model_rewrites_request dfRain reqTypo ["rainfall"] "rainfal"
      (by decide) (by decide) (by decide)).2.1⟩

-- ---------------------------------------------------------------------------
-- C6
-- ---------------------------------------------------------------------------

/-- C6: for every loadable bundle and every prediction input — in
particular one omitting expected feature columns — `predict` succeeds
and returns the single scalar obtained by running the model on the input
reindexed to the bundle column list; a column absent from the input
contributes the cell 0, and a value that fails numeric parsing (a
non-numeric string, or null) contributes 0. -/
theorem predict_succeeds_zero_fill_scalar (b : Bundle)
    (f : List (String × Cell)) :
    predict b f =
      some (b.model
        ((predictInputRow b.feature_columns f).map coerceFill0)) ∧
    (∀ i c, b.feature_columns.get? i = some c → f.lookup c = none →
      (predictInputRow b.feature_columns f).get? i = some (Cell.num 0)) ∧
    (∀ s, coerceFill0 (Cell.str s) = 0) ∧ coerceFill0 Cell.null = 0 := by
  refine ⟨rfl, ?_, fun s => rfl, rfl⟩
  intro i c hi hf
  rw [predictInputRow, List.get?_map, hi]
  simp [hf]

/-- A concrete loadable bundle expecting columns `a` and `b`. -/
def bundleC6 : Bundle := ⟨fun v => v.headD 0, ["a", "b"]⟩

/-- Witness for `predict_succeeds_zero_fill_scalar`: an input omitting
the expected column `b` still predicts, and position 1 of the reindexed
row is the zero fill. -/
theorem predict_succeeds_zero_fill_scalar_witness :
    predict bundleC6 [("a", Cell.num 3)] =
      some (bundleC6.model
        ((predictInputRow bundleC6.feature_columns
          [("a", Cell.num 3)]).map coerceFill0)) ∧
    (predictInputRow bundleC6.feature_columns
      [("a", Cell.num 3)]).get? 1 = some (Cell.num 0) :=
  ⟨(predict_succeeds_zero_fill_scalar bundleC6 [("a", Cell.num 3)]).1,
   (predict_succeeds_zero_fill_scalar bundleC6 [("a", Cell.num 3)]).2.1
     1 "b" rfl rfl⟩

-- ---------------------------------------------------------------------------
-- C9
-- ---------------------------------------------------------------------------

/-- C9: `predict` is insensitive to extra input keys — two inputs that
agree on every column of the bundle feature list (whatever they hold
outside it) produce the same prediction. -/
theorem predict_ignores_extra_keys (b : Bundle)
    (f g : List (String × Cell))
    (h : ∀ c ∈ b.feature_columns, f.lookup c = g.lookup c) :
    predict b f = predict b g := by
  have hrow : predictInputRow b.feature_columns f =
      predictInputRow b.feature_columns g := by
    rw [predictInputRow, predictInputRow]
    apply List.map_congr_left
    intro c hc
    rw [h c hc]
  rw [predict, predict, hrow]

/-- A concrete loadable bundle expecting only column `a`. -/
def bundleC9 : Bundle := ⟨fun v => v.headD 0, ["a"]⟩

/-- Witness for `predict_ignores_extra_keys`: adding a junk key leaves
the prediction unchanged. -/
theorem predict_ignores_extra_keys_witness :
    predict bundleC9 [("a", Cell.num 3), ("junk", Cell.str "x")] =
      predict bundleC9 [("a", Cell.num 3)] :=
  predict_ignores_extra_keys bundleC9
    [("a", Cell.num 3), ("junk", Cell.str "x")] [("a", Cell.num 3)]
    (by decide)

-- ---------------------------------------------------------------------------
-- C8
-- ---------------------------------------------------------------------------

lemma list_getD_eq (r : List Cell) (i : ℕ) :
    r.getD i Cell.null = (r.get? i).getD Cell.null := by
  induction r generalizing i with
  | nil => cases i <;> rfl
  | cons c cs ih => cases i with
    | zero => rfl
    | succ n => exact ih n

lemma modifyAt_get_self (f : Cell → Cell) (r : List Cell) :
    ∀ i : ℕ, (modifyAt i f r).get? i = (r.get? i).map f := by
  induction r with
  | nil => intro i; cases i <;> rfl
  | cons c cs ih =>
    intro i
    cases i with
    | zero => rfl
    | succ n =>
      show (modifyAt n f cs).get? n = (cs.get? n).map f
      exact ih n

/-- The filter predicate of the rainfall reader applied after the
in-place coercion of column `i`. -/
lemma rain_filter_eq_survives (t : Table) (i : ℕ)
    (hidx : colIndex (renameHeader rainRenameMap t).header "rainfall" =
      some i) (r : List Cell) :
    (match (modifyAt i toNumericCoerce r).getD i Cell.null with
      | Cell.num q => decide (0 < q)
      | _ => false) =
      survivesRain (renameHeader rainRenameMap t).header r := by
  rw [survivesRain, cellAt, hidx]
  simp only [Option.some_bind]
  rw [list_getD_eq, modifyAt_get_self]
  cases hc : r.get? i with
  | none => rfl
  | some c => cases c <;> rfl

/-- C8: the rainfall reader keeps exactly the rows whose rainfall value
coerces to a number strictly greater than 0 — every surviving row shows
a positive numeric rainfall, the surviving count equals the count of raw
rows with positive parseable rainfall — and concretely, of the rows
`(X, 2020, -5)` and `(X, 2021, 800)` only the 2021 row survives. -/
theorem rainfall_reader_keeps_positive :
    (∀ (t out : Table), load_and_process_rainfall t = some out →
      (∀ r ∈ out.rows, ∃ q : ℚ,
        cellAt out.header r "rainfall" = some (Cell.num q) ∧ 0 < q) ∧
      out.rows.length = t.rows.countP fun r =>
        survivesRain (renameHeader rainRenameMap t).header r) ∧
    load_and_process_rainfall
      ⟨[" Area", "Year", "average_rain_fall_mm_per_year"],
       [[Cell.str "X", Cell.num 2020, Cell.num (-5)],
        [Cell.str "X", Cell.num 2021, Cell.num 800]]⟩ =
      some ⟨["area", "year", "rainfall"],
        [[Cell.str "X", Cell.num 2021, Cell.num 800]]⟩ := by
  constructor
  · intro t out h
    simp only [load_and_process_rainfall] at h
    split at h
    · exact absurd h (by simp)
    · rename_i i hidx
      unfold selectColsOpt at h
      split at h
      case isFalse => exact absurd h (by simp)
      case isTrue hall =>
        injection h with h
        subst h
        constructor
        · intro r hr
          dsimp only at hr ⊢
          simp only [List.mem_map] at hr
          obtain ⟨pre, hpre, rfl⟩ := hr
          have hpred := (List.mem_filter.mp hpre).2
          cases hc : pre.getD i Cell.null with
          | num q =>
            refine ⟨q, ?_, ?_⟩
            · have h1 : cellAt ["area", "year", "rainfall"]
                  (List.map (fun c =>
                    (cellAt (renameHeader rainRenameMap t).header pre
                      c).getD Cell.null)
                    ["area", "year", "rainfall"]) "rainfall" =
                  some ((cellAt (renameHeader rainRenameMap t).header pre
                    "rainfall").getD Cell.null) := rfl
              rw [h1, cellAt, hidx]
              simp only [Option.some_bind]
              rw [← list_getD_eq, hc]
            · rw [hc] at hpred
              simpa using hpred
          | str s => rw [hc] at hpred; simp at hpred
          | null => rw [hc] at hpred; simp at hpred
        · dsimp only
          rw [List.length_map, ← List.countP_eq_length_filter,
            List.countP_map]
          have hrows : (renameHeader rainRenameMap t).rows = t.rows := rfl
          rw [hrows]
          apply List.countP_congr
          intro r _
          simp only [Function.comp_apply]
          rw [rain_filter_eq_survives t i hidx r]
  · decide

/-- Witness for `rainfall_reader_keeps_positive`: the surviving 2021 row
shows the positive rainfall 800. -/
theorem rainfall_reader_keeps_positive_witness :
    ∃ q : ℚ, cellAt (["area", "year", "rainfall"] : List String)
        [Cell.str "X", Cell.num 2021, Cell.num 800] "rainfall" =
      some (Cell.num q) ∧ 0 < q :=
  (rainfall_reader_keeps_positive.1
    ⟨[" Area", "Year", "average_rain_fall_mm_per_year"],
     [[Cell.str "X", Cell.num 2020, Cell.num (-5)],
      [Cell.str "X", Cell.num 2021, Cell.num 800]]⟩
    ⟨["area", "year", "rainfall"],
     [[Cell.str "X", Cell.num 2021, Cell.num 800]]⟩
    (by decide)).1
    [Cell.str "X", Cell.num 2021, Cell.num 800] (by decide)

-- ---------------------------------------------------------------------------
-- C5
-- ---------------------------------------------------------------------------

lemma dedupFirst_mem_of (n : ℕ) :
    ∀ (l : List (List Cell)), l.length ≤ n → ∀ r ∈ dedupFirst l, r ∈ l := by
  induction n with
  | zero =>
    intro l hl r hr
    have hnil : l = [] := List.eq_nil_of_length_eq_zero (Nat.le_zero.mp hl)
    subst hnil
    simp [dedupFirst] at hr
  | succ n ih =>
    intro l hl r hr
    match l with
    | [] => simp [dedupFirst] at hr
    | x :: xs =>
      rw [dedupFirst] at hr
      rcases List.mem_cons.mp hr with h | h
      · exact h ▸ List.mem_cons_self x xs
      · have hlen : (xs.filter fun y => y ≠ x).length ≤ n :=
          le_trans (List.length_filter_le _ _) (Nat.le_of_succ_le_succ hl)
        exact List.mem_cons_of_mem x
          (List.mem_filter.mp (ih _ hlen r h)).1

lemma dedupFirst_subset (l : List (List Cell)) :
    ∀ r ∈ dedupFirst l, r ∈ l :=
  dedupFirst_mem_of l.length l le_rfl

lemma dedupFirst_nodup_of (n : ℕ) :
    ∀ (l : List (List Cell)), l.length ≤ n → (dedupFirst l).Nodup := by
  induction n with
  | zero =>
    intro l hl
    have hnil : l = [] := List.eq_nil_of_length_eq_zero (Nat.le_zero.mp hl)
    subst hnil
    simp [dedupFirst]
  | succ n ih =>
    intro l hl
    match l with
    | [] => simp [dedupFirst]
    | x :: xs =>
      rw [dedupFirst]
      have hlen : (xs.filter fun y => y ≠ x).length ≤ n :=
        le_trans (List.length_filter_le _ _) (Nat.le_of_succ_le_succ hl)
      refine List.nodup_cons.mpr ⟨?_, ih _ hlen⟩
      intro hx
      have := (List.mem_filter.mp (dedupFirst_mem_of n _ hlen x hx)).2
      simp at this

lemma coerceNumericCols_header :
    ∀ (cols : List String) (t : Table),
      (coerceNumericCols cols t).header = t.header := by
  intro cols
  induction cols with
  | nil => intro t; rfl
  | cons c cs ih =>
    intro t
    rw [coerceNumericCols, List.foldl_cons]
    have h2 := ih (match colIndex t.header c with
      | some i => { t with rows := t.rows.map (modifyAt i toNumericCoerce) }
      | none => t)
    rw [coerceNumericCols] at h2
    rw [h2]
    split <;> rfl

lemma dropNullTarget_header (t : Table) :
    (dropNullTarget t).header = t.header := by
  rw [dropNullTarget]
  split <;> rfl

lemma dropNullTarget_mem (t : Table) (r : List Cell)
    (h : t.header.contains "crop_yield" = true)
    (hr : r ∈ (dropNullTarget t).rows) :
    (cellAt t.header r "crop_yield").getD Cell.null ≠ Cell.null := by
  rw [dropNullTarget, if_pos h] at hr
  have := (List.mem_filter.mp hr).2
  simpa using this

/-- C5: whenever the finalized feature table has a `crop_yield` column,
every row holds a non-null `crop_yield`, and no two rows of the table
are exactly equal across all retained columns. -/
theorem final_table_target_nonnull_nodup (t : Table)
    (h : (create_final_ml_table t).header.contains "crop_yield" = true) :
    (∀ r ∈ (create_final_ml_table t).rows,
      (cellAt (create_final_ml_table t).header r "crop_yield").getD
        Cell.null ≠ Cell.null) ∧
    (create_final_ml_table t).rows.Nodup := by
  by_cases hemp : (t.rows.isEmpty ∨ t.header.isEmpty)
  · rw [create_final_ml_table, if_pos hemp] at h ⊢
    rcases hemp with he | he
    · constructor
      · intro r hr
        rw [List.isEmpty_iff.mp he] at hr
        exact absurd hr (List.not_mem_nil r)
      · rw [List.isEmpty_iff.mp he]
        exact List.nodup_nil
    · rw [List.isEmpty_iff.mp he] at h
      exact absurd h (by simp)
  · rw [create_final_ml_table, if_neg hemp] at h ⊢
    have hhd : (dedupRows (dropNullTarget (coerceNumericCols
        finalNumericColumns (selectPresent priorityColumns t)))).header =
        (coerceNumericCols finalNumericColumns
          (selectPresent priorityColumns t)).header :=
      dropNullTarget_header _
    rw [hhd] at h
    constructor
    · intro r hr
      have hr2 : r ∈ (dropNullTarget (coerceNumericCols
          finalNumericColumns (selectPresent priorityColumns t))).rows :=
        dedupFirst_subset _ r hr
      have hnn := dropNullTarget_mem _ r h hr2
      rw [hhd]
      exact hnn
    · exact dedupFirst_nodup_of _ _ le_rfl

/-- A merged table with a duplicate row, a null target and an
unparseable target. -/
def tDupNull : Table :=
  ⟨["area", "crop_yield"],
   [[Cell.str "A", Cell.num 5], [Cell.str "A", Cell.num 5],
    [Cell.str "B", Cell.null], [Cell.str "B", Cell.str "bad"]]⟩

/-- Witness for `final_table_target_nonnull_nodup` at a table exercising
the null-target drop and the deduplication. -/
theorem final_table_target_nonnull_nodup_witness :
    (∀ r ∈ (create_final_ml_table tDupNull).rows,
      (cellAt (create_final_ml_table tDupNull).header r "crop_yield").getD
        Cell.null ≠ Cell.null) ∧
    (create_final_ml_table tDupNull).rows.Nodup :=
  final_table_target_nonnull_nodup tDupNull (by decide)

-- ---------------------------------------------------------------------------
-- C2
-- ---------------------------------------------------------------------------

lemma colIndex_append_some (h1 : List String) (c : String) (i : ℕ)
    (hc : colIndex h1 c = some i) (h2 : List String) :
    colIndex (h1 ++ h2) c = some i := by
  induction h1 generalizing i with
  | nil => exact absurd hc (by simp [colIndex])
  | cons a l ih =>
    rw [colIndex] at hc
    rw [List.cons_append, colIndex]
    by_cases ha : a = c
    · rw [if_pos ha] at hc ⊢
      exact hc
    · rw [if_neg ha] at hc ⊢
      cases hl : colIndex l c with
      | none => rw [hl] at hc; exact absurd hc (by simp)
      | some j =>
        rw [hl] at hc
        rw [ih j hl]
        exact hc

lemma colIndex_isSome_of_contains (h : List String) (c : String)
    (hc : h.contains c = true) : (colIndex h c).isSome := by
  induction h with
  | nil => exact absurd hc (by simp)
  | cons a l ih =>
    rw [colIndex]
    by_cases ha : a = c
    · rw [if_pos ha]; rfl
    · rw [if_neg ha]
      have hl : l.contains c = true := by
        have hmem : c ∈ a :: l := by simpa using hc
        rcases List.mem_cons.mp hmem with h1 | h1
        · exact absurd h1.symm ha
        · simpa using h1
      have hsome := ih hl
      cases hcl : colIndex l c with
      | none => rw [hcl] at hsome; exact absurd hsome (by simp)
      | some j => rfl

lemma leftJoin_some_of (L R : Table) (name : String)
    (hL : (colIndex L.header "area").isSome ∧
      (colIndex L.header "year").isSome)
    (hR : (colIndex R.header "area").isSome ∧
      (colIndex R.header "year").isSome) :
    ∃ J, leftJoin L R name = some J ∧
      (colIndex J.header "area").isSome ∧
      (colIndex J.header "year").isSome := by
  obtain ⟨la, hla⟩ := Option.isSome_iff_exists.mp hL.1
  obtain ⟨ly, hly⟩ := Option.isSome_iff_exists.mp hL.2
  obtain ⟨ra, hra⟩ := Option.isSome_iff_exists.mp hR.1
  obtain ⟨ry, hry⟩ := Option.isSome_iff_exists.mp hR.2
  rw [leftJoin, hla, hly, hra, hry]
  refine ⟨_, rfl, ?_, ?_⟩
  · rw [colIndex_append_some L.header "area" la hla]
    rfl
  · rw [colIndex_append_some L.header "year" ly hly]
    rfl

lemma mergeFold_some :
    ∀ (ds : List (String × Table)) (m : Table),
      (∀ p ∈ ds, (colIndex p.2.header "area").isSome ∧
        (colIndex p.2.header "year").isSome) →
      ((colIndex m.header "area").isSome ∧
        (colIndex m.header "year").isSome) →
      ∃ u, ds.foldl mergeStep (some m) = some u := by
  intro ds
  induction ds with
  | nil => intro m _ _; exact ⟨m, rfl⟩
  | cons p ps ih =>
    intro m hall hm
    rw [List.foldl_cons, mergeStep]
    by_cases hy : p.1 = "yield"
    · rw [if_pos hy]
      exact ih m (fun q hq => hall q (List.mem_cons_of_mem p hq)) hm
    · rw [if_neg hy]
      by_cases he : p.2.rows.isEmpty = true
      · rw [if_pos he]
        exact ih m (fun q hq => hall q (List.mem_cons_of_mem p hq)) hm
      · rw [if_neg he]
        obtain ⟨J, hJ, hJk⟩ := leftJoin_some_of m p.2 p.1 hm
          (hall p (List.mem_cons_self p ps))
        rw [hJ]
        exact ih J (fun q hq => hall q (List.mem_cons_of_mem p hq)) hJk

lemma lookup_yield_none (ds : List (String × Table))
    (hy : ∀ p ∈ ds, p.1 ≠ "yield") : ds.lookup "yield" = none := by
  induction ds with
  | nil => rfl
  | cons p ps ih =>
    cases p with
    | mk k v =>
      have hk : ("yield" == k) = false := by
        have hne := hy (k, v) (List.mem_cons_self _ _)
        simp only [ne_eq] at hne
        exact beq_eq_false_iff_ne.mpr fun h => hne h.symm
      simp only [List.lookup, hk]
      exact ih fun q hq => hy q (List.mem_cons_of_mem (k, v) hq)

/-- C2, counterexample: a dataset dict holding only the rainfall frame —
the yield source absent — does NOT make merging fail: `merge_datasets`
returns a merged table (built from the rainfall frame, which the merge
loop also joins onto itself, duplicating its value column). -/
theorem merge_without_yield_produces_table :
    merge_datasets [("rainfall",
      ⟨["area", "year", "rainfall"],
       [[Cell.str "X", Cell.num 2021, Cell.num 800]]⟩)] =
      some ⟨["area", "year", "rainfall", "rainfall_rainfall"],
        [[Cell.str "X", Cell.num 2021, Cell.num 800, Cell.num 800]]⟩ := by
  decide

/-- C2 (amended): a missing non-yield source never aborts the merge, and
neither does a missing yield source — when no dataset is named `yield`,
`merge_datasets` starts from the first available dataset and returns a
merged table (it returns none only for an empty dataset dict or frames
lacking the `area`/`year` join keys). -/
theorem merge_without_yield_succeeds (ds : List (String × Table))
    (hne : ds ≠ [])
    (hy : ∀ p ∈ ds, p.1 ≠ "yield")
    (hk : ∀ p ∈ ds, p.2.header.contains "area" = true ∧
      p.2.header.contains "year" = true) :
    ∃ u, merge_datasets ds = some u := by
  match ds, hne with
  | (k0, t0) :: rest, _ =>
    rw [merge_datasets, lookup_yield_none _ hy]
    have hkey : ∀ p ∈ (k0, t0) :: rest,
        (colIndex p.2.header "area").isSome ∧
        (colIndex p.2.header "year").isSome := by
      intro p hp
      exact ⟨colIndex_isSome_of_contains _ _ (hk p hp).1,
        colIndex_isSome_of_contains _ _ (hk p hp).2⟩
    exact mergeFold_some _ t0 hkey (hkey (k0, t0) (List.mem_cons_self _ _))

/-- Witness for `merge_without_yield_succeeds` at the rainfall-only
dataset dict. -/
theorem merge_without_yield_succeeds_witness :
    ∃ u, merge_datasets [("rainfall",
      ⟨["area", "year", "rainfall"],
       [[Cell.str "X", Cell.num 2021, Cell.num 800]]⟩)] = some u :=
  merge_without_yield_succeeds _ (by decide) (by decide) (by decide)
